import Mathlib

/-!
Verification development for the `cfg` layered configuration store.

The definitions below are a shallow embedding of the Go source
(`src/unnamed/part_000`): Go `map[string]interface{}` values become
association lists, the dynamic `interface{}` value becomes the closed
tagged union `Value`, and the two genuinely recursive functions whose
termination depends on runtime data (`realKey`, `find`) are embedded
with an explicit fuel parameter (`none` = the recursion did not reach a
base case within the given fuel, i.e. the Go code would still be
recursing).  Everything else is structurally recursive.
-/

namespace Cfg

/-- The dynamic value universe: scalars, string slices and nested
string-keyed mappings, mirroring the shapes the Go code inspects
(`bool`, `string`, the integer family, the float family, `time.Time`,
`time.Duration`, `[]string`, and nested maps).  Timestamps, durations
and floats are abstract carriers here: no claim computes with them. -/
inductive Value where
  | vBool (b : Bool)
  | vStr (s : String)
  | vInt (n : Int)
  | vFloat (q : Rat)
  | vTime (t : Int)
  | vDuration (d : Int)
  | vStrSlice (l : List String)
  | vMap (m : List (String × Value))

/-- A Go `map[string]interface{}` as an association list. -/
abbrev SMap := List (String × Value)

/-- Lookup in an association list (Go `v, ok := m[k]`). -/
def lookupL {α : Type} : List (String × α) → String → Option α
  | [], _ => none
  | (ka, va) :: rest, k => if ka = k then some va else lookupL rest k

/-- Insertion into an association list (Go `m[k] = v`): replaces the
entry if the key is present, appends otherwise. -/
def insertL {α : Type} (k : String) (v : α) : List (String × α) → List (String × α)
  | [] => [(k, v)]
  | (ka, va) :: rest => if ka = k then (k, v) :: rest else (ka, va) :: insertL k v rest

/-- Deletion from an association list (Go `delete(m, k)`). -/
def eraseL {α : Type} (k : String) : List (String × α) → List (String × α)
  | [] => []
  | (ka, va) :: rest => if ka = k then rest else (ka, va) :: eraseL k rest

/-- ASCII lowercasing of a string, modelling Go `strings.ToLower` on
the ASCII keys the store is used with (structural so that concrete
stores evaluate by `rfl`). -/
def toLowerS (s : String) : String := ⟨s.data.map Char.toLower⟩

/-- Does `pre` occur at the head of `l`? -/
def startsWith : List Char → List Char → Bool
  | [], _ => true
  | _ :: _, [] => false
  | p :: ps, c :: cs => p = c && startsWith ps cs

/-- Splitting worker: structural on a fuel that starts at the length of
the list, so one character (or one full separator occurrence) is
consumed per step.  The fuel never runs out when it starts at the
list's length. -/
def splitAux (sep : List Char) : Nat → List Char → List Char → List (List Char)
  | _, [], acc => [acc.reverse]
  | 0, l, acc => [acc.reverse ++ l]
  | fuel + 1, ch :: cs, acc =>
    if sep ≠ [] ∧ startsWith sep (ch :: cs) then
      acc.reverse :: splitAux sep fuel (List.drop (sep.length - 1) cs) []
    else
      splitAux sep fuel cs (ch :: acc)

/-- Go `strings.Split s sep` for a non-empty separator (the store only
ever splits on its one-character key delimiter). -/
def splitOnS (s sep : String) : List String :=
  (splitAux sep.data s.data.length s.data []).map fun l => ⟨l⟩

/-- Go `strings.Contains s sub`, expressed through the same split used
to model `strings.Split`. -/
def strContains (s sub : String) : Bool := (splitOnS s sub).length != 1

/-- Duplicate removal used to model the key-set union in `AllKeys`. -/
def dedupStr : List String → List String
  | [] => []
  | x :: xs =>
    let r := dedupStr xs
    if r.contains x then r else x :: r

/-- The `Config` struct of the Go source. -/
structure Config where
  keyDelm : String
  configName : String
  configFile : String
  configType : String
  configPaths : List String
  config : SMap
  defaults : SMap
  overrides : SMap
  aliases : List (String × String)
  verbose : Bool
  typeByDefValue : Bool

/-- `New()`: the initial empty store. -/
def New : Config :=
  { keyDelm := "."
    configName := "config"
    configFile := ""
    configType := ""
    configPaths := []
    config := []
    defaults := []
    overrides := []
    aliases := []
    verbose := false
    typeByDefValue := false }

/-- Fuelled alias-chain resolution.  The Go `realKey` recurses while the
current key has an alias entry; on an acyclic alias table a chain makes
at most `aliases.length` successful lookups before reaching a key with
no entry, so that much fuel computes the exact fixpoint. -/
def realKeyF (al : List (String × String)) : Nat → String → String
  | 0, key => key
  | fuel + 1, key =>
    match lookupL al key with
    | some newkey => realKeyF al fuel newkey
    | none => key

/-- `realKey`: resolve an alias chain to its canonical key. -/
def Config.realKey (c : Config) (key : String) : String :=
  realKeyF c.aliases c.aliases.length key

/-- Is this value a nested mapping (Go `reflect.Kind == reflect.Map`)? -/
def Value.isMap : Value → Bool
  | .vMap _ => true
  | _ => false

/-- `searchMap`: nested descent along the remaining path segments.  The
Go receiver is unused by the body, so the embedding drops it. -/
def searchMap : SMap → List String → Option Value
  | s, [] => some (Value.vMap s)
  | s, seg :: rest =>
    match lookupL s seg with
    | some (Value.vMap m) => searchMap m rest
    | some next => some next
    | none => none

/-- Modelled from the spec: the external `cast` collaborator (§6) is not
part of this repository; on a value that already has the witness type
every cast returns it unchanged, and cross-type casts degrade
best-effort to a zero-ish value.  Only the same-type identity is
load-bearing for the claims. -/
def castToBool : Value → Value
  | .vBool b => .vBool b
  | .vInt n => .vBool (decide (n ≠ 0))
  | _ => .vBool false

/-- Modelled from the spec: best-effort string cast (identity on strings). -/
def castToString : Value → Value
  | .vStr s => .vStr s
  | .vInt n => .vStr (toString n)
  | .vBool b => .vStr (toString b)
  | _ => .vStr ""

/-- Modelled from the spec: best-effort integer cast (identity on ints). -/
def castToInt : Value → Value
  | .vInt n => .vInt n
  | .vBool b => .vInt (if b then 1 else 0)
  | _ => .vInt 0

/-- Modelled from the spec: best-effort float cast (identity on floats). -/
def castToFloat64 : Value → Value
  | .vFloat q => .vFloat q
  | .vInt n => .vFloat n
  | _ => .vFloat 0

/-- Modelled from the spec: best-effort timestamp cast (identity on timestamps). -/
def castToTime : Value → Value
  | .vTime t => .vTime t
  | _ => .vTime 0

/-- Modelled from the spec: best-effort duration cast (identity on durations). -/
def castToDuration : Value → Value
  | .vDuration d => .vDuration d
  | .vInt n => .vDuration n
  | _ => .vDuration 0

/-- Modelled from the spec: best-effort string-slice cast (identity on
string slices). -/
def castToStringSlice : Value → Value
  | .vStrSlice l => .vStrSlice l
  | .vStr s => .vStrSlice [s]
  | _ => .vStrSlice []

/-- The witness-type coercion switch at the end of `Get`: dispatch on
the witness `valType` and cast the found value; anything else
(including nested mappings) is returned unchanged. -/
def coerce (valType val : Value) : Value :=
  match valType with
  | .vBool _ => castToBool val
  | .vStr _ => castToString val
  | .vInt _ => castToInt val
  | .vFloat _ => castToFloat64 val
  | .vTime _ => castToTime val
  | .vDuration _ => castToDuration val
  | .vStrSlice _ => castToStringSlice val
  | .vMap _ => val

/-- `find`: precedence-ordered resolution with the dotted-path fallback,
fuelled because the recursion `find path[0]` is not structurally
decreasing (and, as proved below, genuinely diverges on some reachable
stores).  Result `none` means the fuel ran out mid-recursion; `some r`
means the Go function returns, with `r = none` for its `nil`. -/
def findF (c : Config) : Nat → String → Option (Option Value)
  | 0, _ => none
  | fuel + 1, k0 =>
    let key := c.realKey k0
    match lookupL c.overrides key with
    | some v => some (some v)
    | none =>
      match lookupL c.config key with
      | some v => some (some v)
      | none =>
        if strContains key c.keyDelm then
          let path := splitOnS key c.keyDelm
          match findF c fuel (path.headD "") with
          | none => none
          | some (some (Value.vMap m)) => some (searchMap m path.tail)
          | some _ => some (lookupL c.defaults key)
        else
          some (lookupL c.defaults key)

/-- `Get`: lowercase the key, try `find`, then the second loose
dotted-path fallback on the original-case first segment, then the
witness-type coercion.  Fuel is threaded into both `find` calls. -/
def GetF (c : Config) (fuel : Nat) (key : String) : Option (Option Value) :=
  let p := splitOnS key c.keyDelm
  let lcaseKey := toLowerS key
  match findF c fuel lcaseKey with
  | none => none
  | some val0 =>
    let val1 : Option (Option Value) :=
      match val0 with
      | some v => some (some v)
      | none =>
        match findF c fuel (p.headD "") with
        | none => none
        | some (some (Value.vMap m)) => some (searchMap m p.tail)
        | some _ => some none
    match val1 with
    | none => none
    | some none => some none
    | some (some v) =>
      let valType :=
        if !c.typeByDefValue then v
        else
          match lookupL c.defaults lcaseKey with
          | some defVal => defVal
          | none => v
      some (some (coerce valType v))

/-- `Set`: store an override under the canonicalized lowercase key. -/
def Config.Set (c : Config) (key : String) (v : Value) : Config :=
  { c with overrides := insertL (c.realKey (toLowerS key)) v c.overrides }

/-- `SetDefault`: store a default under the canonicalized lowercase key. -/
def Config.SetDefault (c : Config) (key : String) (v : Value) : Config :=
  { c with defaults := insertL (c.realKey (toLowerS key)) v c.defaults }

/-- The per-layer migration block of `registerAlias`:
`if val, ok := m[alias]; ok { delete(m, alias); m[key] = val }`. -/
def moveEntry {α : Type} (alias0 key : String) (m : List (String × α)) :
    List (String × α) :=
  match lookupL m alias0 with
  | some v => insertL key v (eraseL alias0 m)
  | none => m

/-- `registerAlias`: lowercase the alias; reject (unchanged store) when
the alias equals the key or the key's canonical resolution; skip when
the alias is already registered; otherwise migrate any entries stored
under the alias in the three layers to `key` and record the alias.
The three layer updates are independent fields, so the sequential Go
assignments are expressed as one record update. -/
def Config.registerAlias (c : Config) (alias0 key : String) : Config :=
  let al := toLowerS alias0
  if al ≠ key ∧ al ≠ c.realKey key then
    match lookupL c.aliases al with
    | some _ => c
    | none =>
      { c with
        config := moveEntry al key c.config
        defaults := moveEntry al key c.defaults
        overrides := moveEntry al key c.overrides
        aliases := insertL al key c.aliases }
  else c

/-- `RegisterAlias`: public wrapper, lowercases the target key. -/
def Config.RegisterAlias (c : Config) (alias0 key : String) : Config :=
  c.registerAlias alias0 (toLowerS key)

/-- `InConfig`: does the config layer (only) hold the alias-resolved
key?  Note the source applies `realKey` but never lowercases here. -/
def Config.InConfig (c : Config) (key : String) : Bool :=
  (lookupL c.config (c.realKey key)).isSome

/-- `IsSet`: `Get(key) != nil`, with `Get`'s fuel threaded through. -/
def IsSetF (c : Config) (fuel : Nat) (key : String) : Option Bool :=
  match GetF c fuel key with
  | none => none
  | some r => some r.isSome

/-- `AllKeys`: union of the keys of the three layers, duplicates
removed (Go builds a set; iteration order is unspecified). -/
def Config.AllKeys (c : Config) : List String :=
  dedupStr (c.defaults.map Prod.fst ++ c.config.map Prod.fst ++ c.overrides.map Prod.fst)

/-- `AllSettings`: every known key paired with its `Get` result. -/
def AllSettingsF (c : Config) (fuel : Nat) : List (String × Option (Option Value)) :=
  c.AllKeys.map fun x => (x, GetF c fuel x)

/-- Wholesale replacement of the config layer, as done by
`ReadInConfig` (`c.config = make(...)` followed by unmarshalling the
parsed file into it); parsing itself is an external collaborator. -/
def Config.replaceConfig (c : Config) (m : SMap) : Config :=
  { c with config := m }

/-!
State-passing forms of the read operations.  The Go methods receive the
store through a pointer and could in principle assign to its fields;
their bodies contain no such assignment, so their embedding returns the
store they were given, and the frame theorem below records it.
-/

/-- `Get` as a state transformer. -/
def GetOp (c : Config) (fuel : Nat) (key : String) : Option (Option Value) × Config :=
  (GetF c fuel key, c)

/-- `find` as a state transformer. -/
def findOp (c : Config) (fuel : Nat) (key : String) : Option (Option Value) × Config :=
  (findF c fuel key, c)

/-- `searchMap` as a state transformer (its Go receiver is `c`). -/
def searchMapOp (c : Config) (s : SMap) (p : List String) : Option Value × Config :=
  (searchMap s p, c)

/-- `IsSet` as a state transformer. -/
def IsSetOp (c : Config) (fuel : Nat) (key : String) : Option Bool × Config :=
  (IsSetF c fuel key, c)

/-- `InConfig` as a state transformer. -/
def InConfigOp (c : Config) (key : String) : Bool × Config :=
  (c.InConfig key, c)

/-- `AllKeys` as a state transformer. -/
def AllKeysOp (c : Config) : List String × Config :=
  (c.AllKeys, c)

/-- `AllSettings` as a state transformer. -/
def AllSettingsOp (c : Config) (fuel : Nat) :
    List (String × Option (Option Value)) × Config :=
  (AllSettingsF c fuel, c)

/-!  Concrete stores, each built through the exposed operations. -/

/-- A store whose config layer maps the top-level key `a` to the scalar
`5` and which stores nothing else anywhere. -/
def c2Scalar : Config := New.replaceConfig [("a", Value.vInt 5)]

/-- A store whose config layer maps `a` to the nested mapping `{b: 5}`. -/
def c2Nested : Config := New.replaceConfig [("a", Value.vMap [("b", Value.vInt 5)])]

/-- A store with the default `a.b -> 7` as its only entry for the exact
key `a.b`, and a config-layer mapping at the prefix `a` that does not
contain `b`. -/
def c3x : Config := (New.replaceConfig [("a", Value.vMap [])]).SetDefault "a.b" (Value.vInt 7)

/-- A store whose `Get` for a lowercase default-only key succeeds. -/
def c3w : Config := New.SetDefault "z" (Value.vInt 7)

/-- A store whose config layer holds the key `foo`. -/
def c4x : Config := New.replaceConfig [("foo", Value.vInt 1)]

/-- A store with all three layers populated at the key `k`. -/
def c1w : Config :=
  ((New.replaceConfig [("k", Value.vInt 2)]).SetDefault "k" (Value.vInt 3)).Set "k" (Value.vInt 1)

/-- Both alias registrations below pass the circularity guard, yet the
resulting chain `a -> b.c`, `b -> a.d` makes `find` recurse forever. -/
def cLoop : Config := (New.RegisterAlias "a" "b.c").RegisterAlias "b" "a.d"

/-- A reachable store holding the override `a -> 7` alongside the alias
`b -> c`. -/
def c7Before : Config := (New.RegisterAlias "b" "c").Set "a" (Value.vInt 7)

/-- The store after additionally registering the alias `a -> b`: the
migration moves the entry stored under `a` to the literal target `b`,
not to the canonical key `c = realKey b`. -/
def c7After : Config := c7Before.RegisterAlias "a" "b"

/-!  Helper lemmas shared by the claim theorems. -/

/-- Coercing a value against its own type witness is the identity: every
branch of the cast dispatch returns a same-typed value unchanged. -/
theorem coerce_self (v : Value) : coerce v v = v := by
  cases v <;> rfl

/-- Looking up the key just inserted finds the inserted value. -/
theorem lookupL_insertL_self {α : Type} (k : String) (v : α) (m : List (String × α)) :
    lookupL (insertL k v m) k = some v := by
  induction m with
  | nil => simp [insertL, lookupL]
  | cons hd tl ih =>
    obtain ⟨ka, va⟩ := hd
    by_cases h : ka = k
    · simp [insertL, lookupL, h]
    · simp [insertL, lookupL, h, ih]

/-- When the overrides layer holds the canonicalized lowercase key,
`Get` returns that entry (coerced against its own type, hence
unchanged), for any positive fuel. -/
theorem GetF_hit (c : Config) (k : String) (v : Value) (fuel : Nat)
    (hT : c.typeByDefValue = false)
    (hov : lookupL c.overrides (c.realKey (toLowerS k)) = some v) :
    GetF c (fuel + 1) k = some (some v) := by
  simp [GetF, findF, hov, hT, coerce_self]

/-- When neither overrides nor config holds the canonicalized lowercase
key, the key's canonical form is delimiter-free, and the defaults layer
holds it, `Get` returns the default entry, for any positive fuel. -/
theorem GetF_default_hit (c : Config) (k : String) (v : Value) (fuel : Nat)
    (hT : c.typeByDefValue = false)
    (h1 : lookupL c.overrides (c.realKey (toLowerS k)) = none)
    (h2 : lookupL c.config (c.realKey (toLowerS k)) = none)
    (h4 : strContains (c.realKey (toLowerS k)) c.keyDelm = false)
    (h3 : lookupL c.defaults (c.realKey (toLowerS k)) = some v) :
    GetF c (fuel + 1) k = some (some v) := by
  simp [GetF, findF, h1, h2, h4, h3, hT, coerce_self]

/-!  Claim theorems. -/

/-- C1: for every store (with the type-by-default policy at its only
constructible value, `false`) and every key whose canonical lowercase
form has an exact entry simultaneously in the overrides, config, and
defaults layers, `Get` returns the overrides layer's value — the
highest-precedence layer wins and no merging across layers happens. -/
theorem c1_precedence_override_wins (c : Config) (k : String) (v w u : Value)
    (hT : c.typeByDefValue = false)
    (hov : lookupL c.overrides (c.realKey (toLowerS k)) = some v)
    (_hcf : lookupL c.config (c.realKey (toLowerS k)) = some w)
    (_hdf : lookupL c.defaults (c.realKey (toLowerS k)) = some u) :
    ∀ fuel, GetF c (fuel + 1) k = some (some v) :=
  fun fuel => GetF_hit c k v fuel hT hov

/-- Witness for C1: a store with `k -> 1` in overrides, `k -> 2` in
config and `k -> 3` in defaults resolves `Get "K"` to the override. -/
theorem c1_precedence_override_wins_witness :
    GetF c1w 1 "K" = some (some (Value.vInt 1)) :=
  c1_precedence_override_wins c1w "K" (Value.vInt 1) (Value.vInt 2) (Value.vInt 3)
    rfl rfl rfl rfl 0

/-- C8: the `searchMap` contract — empty path returns the root map;
absent first segment returns nil; a nested-mapping hit recurses on the
remaining path; a non-mapping hit is returned immediately even when
segments remain. -/
theorem c8_searchMap_contract :
    (∀ s : SMap, searchMap s [] = some (Value.vMap s)) ∧
    (∀ (s : SMap) (seg : String) (rest : List String),
        lookupL s seg = none → searchMap s (seg :: rest) = none) ∧
    (∀ (s : SMap) (seg : String) (rest : List String) (m : SMap),
        lookupL s seg = some (Value.vMap m) →
        searchMap s (seg :: rest) = searchMap m rest) ∧
    (∀ (s : SMap) (seg : String) (rest : List String) (v : Value),
        lookupL s seg = some v → v.isMap = false →
        searchMap s (seg :: rest) = some v) := by
  refine ⟨fun s => rfl, ?_, ?_, ?_⟩
  · intro s seg rest h
    simp [searchMap, h]
  · intro s seg rest m h
    simp [searchMap, h]
  · intro s seg rest v h hm
    cases v <;> simp_all [searchMap, Value.isMap]

/-- Witness for C8: the three conditional clauses at concrete inputs. -/
theorem c8_searchMap_contract_witness :
    searchMap [("a", Value.vInt 1)] ["z"] = none ∧
    searchMap [("a", Value.vMap [("b", Value.vInt 2)])] ["a", "b"] =
      searchMap [("b", Value.vInt 2)] ["b"] ∧
    searchMap [("a", Value.vInt 1)] ["a", "zz"] = some (Value.vInt 1) :=
  ⟨c8_searchMap_contract.2.1 [("a", Value.vInt 1)] "z" [] rfl,
   c8_searchMap_contract.2.2.1 [("a", Value.vMap [("b", Value.vInt 2)])] "a" ["b"]
     [("b", Value.vInt 2)] rfl,
   c8_searchMap_contract.2.2.2 [("a", Value.vInt 1)] "a" ["zz"] (Value.vInt 1) rfl rfl⟩

/-- C10: the read operations modify nothing — in state-transformer form
each returns exactly the store it was given, for every store, fuel, key,
map and path. -/
theorem c10_reads_leave_store_unchanged (c : Config) (fuel : Nat) (key : String)
    (s : SMap) (p : List String) :
    (GetOp c fuel key).2 = c ∧ (findOp c fuel key).2 = c ∧
    (searchMapOp c s p).2 = c ∧ (IsSetOp c fuel key).2 = c ∧
    (InConfigOp c key).2 = c ∧ (AllKeysOp c).2 = c ∧
    (AllSettingsOp c fuel).2 = c :=
  ⟨rfl, rfl, rfl, rfl, rfl, rfl, rfl⟩

/-- C5: a registration whose lowered alias equals the (lowered) target
key or the target's canonical resolution is rejected with the whole
store — in particular the alias table — left unchanged; and in the
concrete `x -> y` then `y -> x` scenario the first registration is
applied, the second is rejected, and afterwards no alias resolves to
itself (`realKey x = y`, `realKey y = y`). -/
theorem c5_circular_alias_rejected :
    (∀ (c : Config) (a k : String),
        toLowerS a = toLowerS k ∨ toLowerS a = c.realKey (toLowerS k) →
        c.RegisterAlias a k = c) ∧
    (New.RegisterAlias "x" "y").aliases = [("x", "y")] ∧
    (New.RegisterAlias "x" "y").RegisterAlias "y" "x" = New.RegisterAlias "x" "y" ∧
    ((New.RegisterAlias "x" "y").RegisterAlias "y" "x").realKey "x" = "y" ∧
    ((New.RegisterAlias "x" "y").RegisterAlias "y" "x").realKey "y" = "y" := by
  refine ⟨?_, rfl, rfl, rfl, rfl⟩
  intro c a k h
  simp only [Config.RegisterAlias, Config.registerAlias]
  rcases h with h | h
  · rw [if_neg (fun hc => hc.1 h)]
  · rw [if_neg (fun hc => hc.2 h)]

/-- Witness for C5: the rejection clause applied at a concrete store
and a directly circular registration. -/
theorem c5_circular_alias_rejected_witness :
    New.RegisterAlias "q" "q" = New :=
  c5_circular_alias_rejected.1 New "q" "q" (Or.inl rfl)

/-- C4 counterexample: `InConfig` does not lowercase — on the store
whose config layer holds `foo`, `InConfig "foo"` and `InConfig "FOO"`
differ, so the operations do not all behave identically on mixed-case
variants of a key. -/
theorem c4_counterexample_inconfig_case :
    c4x.InConfig "foo" = true ∧ c4x.InConfig "FOO" = false ∧
    c4x.InConfig "foo" ≠ c4x.InConfig "FOO" := by
  refine ⟨rfl, rfl, ?_⟩
  intro h
  have e1 : c4x.InConfig "foo" = true := rfl
  have e2 : c4x.InConfig "FOO" = false := rfl
  rw [e1, e2] at h
  cases h

/-- C4 amended: `Set` and `SetDefault` lowercase and `realKey`-resolve
the key before storage, and `Get` lowercases the full key before its
primary `find`, so these behave identically on keys equal up to case;
(`InConfig` and `Get`'s second dotted-path fallback operate on the
original-case key and are exempted). -/
theorem c4_amended_case_normalization (c : Config) (k1 k2 : String) (v : Value)
    (h : toLowerS k1 = toLowerS k2) :
    c.Set k1 v = c.Set k2 v ∧ c.SetDefault k1 v = c.SetDefault k2 v ∧
    ∀ fuel, findF c fuel (toLowerS k1) = findF c fuel (toLowerS k2) := by
  refine ⟨?_, ?_, fun fuel => ?_⟩ <;> simp [Config.Set, Config.SetDefault, h]

/-- Witness for C4 amended: mixed-case sets coincide on a concrete store. -/
theorem c4_amended_case_normalization_witness :
    New.Set "Foo" (Value.vInt 1) = New.Set "fOO" (Value.vInt 1) :=
  (c4_amended_case_normalization New "Foo" "fOO" (Value.vInt 1) rfl).1

/-- C2 counterexample: with config `{a: 5}` and nothing else stored,
`Get "a.b.c"` returns nil (the store terminates and reports absence),
not `5` as the claim states. -/
theorem c2_counterexample_scalar_prefix :
    GetF c2Scalar 5 "a.b.c" = some none ∧
    GetF c2Scalar 5 "a.b.c" ≠ some (some (Value.vInt 5)) := by
  refine ⟨rfl, ?_⟩
  intro h
  have e : GetF c2Scalar 5 "a.b.c" = some none := rfl
  rw [e] at h
  simp at h

/-- C2 amended: with config `{a: 5}` the dotted lookup `Get "a.b.c"`
returns absent — the non-mapping short-circuit applies only during
nested descent below a mapping: with config `{a: {b: 5}}`,
`Get "a.b.c"` returns `5`, the trailing segment being ignored once the
scalar is reached inside `searchMap`. -/
theorem c2_amended_shortcircuit_below_mapping :
    GetF c2Scalar 5 "a.b.c" = some none ∧
    GetF c2Nested 5 "a.b.c" = some (some (Value.vInt 5)) ∧
    GetF c2Nested 5 "a.b" = some (some (Value.vInt 5)) :=
  ⟨rfl, rfl, rfl⟩

/-- C3 counterexample: the key `a.b` has an entry only in the defaults
layer, yet because the config layer maps the prefix `a` to a mapping
not containing `b`, the dotted-path fallback intercepts and `Get "a.b"`
returns nil instead of the default `7` (while `InConfig` is false as
claimed). -/
theorem c3_counterexample_shadowed_default :
    lookupL c3x.overrides "a.b" = none ∧
    lookupL c3x.config "a.b" = none ∧
    lookupL c3x.defaults "a.b" = some (Value.vInt 7) ∧
    c3x.InConfig "a.b" = false ∧
    GetF c3x 5 "a.b" = some none ∧
    GetF c3x 5 "a.b" ≠ some (some (Value.vInt 7)) := by
  refine ⟨rfl, rfl, rfl, rfl, rfl, ?_⟩
  intro h
  have e : GetF c3x 5 "a.b" = some none := rfl
  rw [e] at h
  simp at h

/-- C3 amended: for every lowercase key whose canonical form contains no
key delimiter and has an entry only in the defaults layer, `Get`
returns the default and `InConfig` is false; for keys containing the
delimiter, a prefix resolving to a mapping can shadow the default into
absence (see the counterexample). -/
theorem c3_amended_defaults_only (c : Config) (k : String) (v : Value)
    (hlc : toLowerS k = k) (hT : c.typeByDefValue = false)
    (h1 : lookupL c.overrides (c.realKey k) = none)
    (h2 : lookupL c.config (c.realKey k) = none)
    (h3 : lookupL c.defaults (c.realKey k) = some v)
    (h4 : strContains (c.realKey k) c.keyDelm = false) :
    (∀ fuel, GetF c (fuel + 1) k = some (some v)) ∧ c.InConfig k = false := by
  constructor
  · intro fuel
    refine GetF_default_hit c k v fuel hT ?_ ?_ ?_ ?_ <;> rw [hlc]
    · exact h1
    · exact h2
    · exact h4
    · exact h3
  · simp [Config.InConfig, h2]

/-- Witness for C3 amended: a store holding only the default `z -> 7`. -/
theorem c3_amended_defaults_only_witness :
    GetF c3w 1 "z" = some (some (Value.vInt 7)) ∧ c3w.InConfig "z" = false :=
  ⟨(c3_amended_defaults_only c3w "z" (Value.vInt 7) rfl rfl rfl rfl rfl rfl).1 0,
   (c3_amended_defaults_only c3w "z" (Value.vInt 7) rfl rfl rfl rfl rfl rfl).2⟩

/-- C7: evaluation at the failing input.  Before the registration the
override set through `Set "a" 7` is readable (`Get "a" = 7`); the
registration `RegisterAlias "a" "b"` on a store already holding the
alias `b -> c` migrates the entry to the literal target `b` — not to
the canonical key `c = realKey "b"` — after which the value is
unreachable through the alias `a`, through `b`, and through the
canonical name `c` alike, even though it still sits in the overrides
layer under `b`. -/
theorem c7_migration_to_literal_target_eval :
    GetF c7Before 5 "a" = some (some (Value.vInt 7)) ∧
    c7After.realKey "a" = "c" ∧
    lookupL c7After.overrides "b" = some (Value.vInt 7) ∧
    lookupL c7After.overrides "c" = none ∧
    GetF c7After 5 "a" = some none ∧
    GetF c7After 5 "b" = some none ∧
    GetF c7After 5 "c" = some none :=
  ⟨rfl, rfl, rfl, rfl, rfl, rfl, rfl⟩

/-- C6: evaluation at the failing input.  Both registrations pass the
circularity guard (`a` aliases the dotted key `b.c`, `b` aliases
`a.d`), yet `find "a"` recurses `a -> b -> a -> ...` without bound: for
every fuel the fuelled embedding fails to reach a base case, so the Go
original never returns; `Get "a"` diverges with it. -/
theorem c6_find_divergence_on_reachable_store :
    cLoop.aliases = [("a", "b.c"), ("b", "a.d")] ∧
    ∀ fuel, findF cLoop fuel "a" = none ∧ GetF cLoop fuel "a" = none := by
  refine ⟨rfl, fun fuel => ?_⟩
  have stepA : ∀ n, findF cLoop (n + 1) "a" =
      (match findF cLoop n "b" with
       | none => none
       | some (some (Value.vMap mm)) => some (searchMap mm ["c"])
       | some _ => some none) := fun _ => rfl
  have stepB : ∀ n, findF cLoop (n + 1) "b" =
      (match findF cLoop n "a" with
       | none => none
       | some (some (Value.vMap mm)) => some (searchMap mm ["d"])
       | some _ => some none) := fun _ => rfl
  have key : ∀ n, findF cLoop n "a" = none ∧ findF cLoop n "b" = none := by
    intro n
    induction n with
    | zero => exact ⟨rfl, rfl⟩
    | succ n ih =>
      constructor
      · rw [stepA n, ih.2]
      · rw [stepB n, ih.1]
  have hget : GetF cLoop fuel "a" = none := by
    have hf : findF cLoop fuel (toLowerS "a") = none := (key fuel).1
    simp [GetF, hf]
  exact ⟨(key fuel).1, hget⟩

/-- C9: on a store with no prior aliases (and the type-by-default
policy at its only constructible value), after `RegisterAlias "new"
"old"` a value set through either name is readable through the other:
`Set "new" v` makes `Get "old" = v` and `Set "old" v` makes
`Get "new" = v`, for every value and fuel. -/
theorem c9_alias_transparency (c : Config) (hA : c.aliases = [])
    (hT : c.typeByDefValue = false) (v : Value) (fuel : Nat) :
    GetF ((c.RegisterAlias "new" "old").Set "new" v) (fuel + 1) "old" = some (some v) ∧
    GetF ((c.RegisterAlias "new" "old").Set "old" v) (fuel + 1) "new" = some (some v) := by
  have hrk : c.realKey "old" = "old" := by
    unfold Config.realKey
    rw [hA]
    rfl
  have hc1 : c.RegisterAlias "new" "old" =
      { c with config := moveEntry "new" "old" c.config,
               defaults := moveEntry "new" "old" c.defaults,
               overrides := moveEntry "new" "old" c.overrides,
               aliases := [("new", "old")] } := by
    simp only [Config.RegisterAlias, Config.registerAlias]
    rw [show toLowerS "old" = "old" from rfl, show toLowerS "new" = "new" from rfl,
      hrk, hA]
    rw [if_pos ⟨by decide, by decide⟩]
    rfl
  rw [hc1]
  constructor
  · refine GetF_hit _ "old" v fuel hT ?_
    exact lookupL_insertL_self "old" v _
  · refine GetF_hit _ "new" v fuel hT ?_
    exact lookupL_insertL_self "old" v _

/-- Witness for C9: the round trips at the empty store with `v = 42`. -/
theorem c9_alias_transparency_witness :
    GetF ((New.RegisterAlias "new" "old").Set "new" (Value.vInt 42)) 1 "old" =
      some (some (Value.vInt 42)) ∧
    GetF ((New.RegisterAlias "new" "old").Set "old" (Value.vInt 42)) 1 "new" =
      some (some (Value.vInt 42)) :=
  c9_alias_transparency New rfl rfl (Value.vInt 42) 0

end Cfg
